import Mathlib

/-!
Verification of the wasm-summarizer-poc logic layer.

Shallow embedding of the logic owned by the repository (services/commandService.ts,
services/llmService.ts, utils/tokenizer.ts, utils/performance.ts,
config/models.ts).  JS strings are modelled as `List Char`; JS numbers are
`Nat` where the source only ever holds non-negative integers and `ℚ` where
real division occurs.  The external inference runtime (pipeline construction
and invocation) is modelled as an environment parameter: for each model name
it either yields a fresh pipeline object or throws an error string.
-/

namespace WasmSummarizer

/-! ## String primitives (JS semantics on `List Char`) -/

/-- JS split of `s` at the newline character: cut the character list at every newline; the empty
string yields one empty piece. -/
def splitNl : List Char → List (List Char)
  | [] => [[]]
  | c :: cs =>
    if c = '\n' then [] :: splitNl cs
    else
      match splitNl cs with
      | [] => [[c]]
      | l :: ls => (c :: l) :: ls

/-- JS `line.trim()`: drop whitespace from both ends. -/
def jsTrim (l : List Char) : List Char :=
  ((l.dropWhile Char.isWhitespace).reverse.dropWhile Char.isWhitespace).reverse

/-- JS `hay.includes(needle)`: needle occurs as a contiguous substring. -/
def containsSub (hay needle : List Char) : Bool :=
  match hay with
  | [] => needle.isEmpty
  | _ :: t => needle.isPrefixOf hay || containsSub t needle

/-- JS `s.toLowerCase()` (ASCII-relevant part). -/
def jsToLower (l : List Char) : List Char := l.map Char.toLower

/-! ## utils/tokenizer.ts — SimpleTokenizer -/

/-- `SimpleTokenizer.APPROX_CHARS_PER_TOKEN`. -/
def APPROX_CHARS_PER_TOKEN : Nat := 4

/-- `SimpleTokenizer.estimateTokens`: `Math.ceil(text.length / 4)`.  On
naturals, the ceiling of `n / 4` is `(n + 3) / 4` with truncating division;
the identity with the mathematical ceiling is proved in `estimateTokens_c6`. -/
def estimateTokens (text : List Char) : Nat :=
  (text.length + (APPROX_CHARS_PER_TOKEN - 1)) / APPROX_CHARS_PER_TOKEN

/-- `SimpleTokenizer.truncateText`: hard cut at `maxTokens * 4` characters
(`text.substring(0, maxChars)`), returning the text unchanged when short. -/
def truncateText (text : List Char) (maxTokens : Nat) : List Char :=
  let maxChars := maxTokens * APPROX_CHARS_PER_TOKEN
  if maxChars < text.length then text.take maxChars else text

/-! ## utils/performance.ts — PerformanceMonitor -/

/-- `PerformanceMonitor.calculateTokensPerSecond`:
`timeMs > 0 ? tokens / (timeMs / 1000) : 0`. -/
def calculateTokensPerSecond (tokens timeMs : ℚ) : ℚ :=
  if 0 < timeMs then tokens / (timeMs / 1000) else 0

/-! ## config/models.ts -/

/-- `TOKEN_LIMITS.INPUT_MAX`. -/
def TOKEN_LIMITS_INPUT_MAX : Nat := 1000

/-! ## services/commandService.ts — applyOutputGuardrails -/

/-- The keep-predicate of the guardrail filter, exactly the conjunction in
`CommandService.applyOutputGuardrails` (lines 117–124 of the source). -/
def keepLine (line : List Char) : Bool :=
  !(containsSub (jsToLower line) "because".data) &&
  !(containsSub (jsToLower line) "to ".data) &&
  !(containsSub (jsToLower line) "this will".data) &&
  !(containsSub (jsToLower line) "you can".data) &&
  !(containsSub line "#".data) &&
  !(("```".data).isPrefixOf line)

/-- The fallback command returned when no line survives the filter. -/
def fallbackLine : List Char :=
  "# Check available tools and system documentation".data

/-- `CommandService.applyOutputGuardrails`: split on newline, trim, drop
empty lines, keep lines passing `keepLine`, take the first 3, and fall back
to `fallbackLine` when nothing survives. -/
def applyOutputGuardrails (output : List Char) : List (List Char) :=
  let lines1 := ((splitNl output).map jsTrim).filter (fun line => decide (0 < line.length))
  let lines2 := lines1.filter keepLine
  let lines3 := lines2.take 3
  if lines3.length = 0 then [fallbackLine] else lines3

/-- Modelled from the spec (section 4.4): a line matches the denylist when it
contains one of the explanatory phrases case-insensitively, or contains a
hash character, or starts with a triple-backtick fence. -/
def denylisted (line : List Char) : Bool :=
  containsSub (jsToLower line) "because".data ||
  containsSub (jsToLower line) "to ".data ||
  containsSub (jsToLower line) "this will".data ||
  containsSub (jsToLower line) "you can".data ||
  containsSub line "#".data ||
  ("```".data).isPrefixOf line

/-- Modelled from the spec (section 4.4, Output Guardrail / Sanitizer), as the
reference algorithm for comparison with `applyOutputGuardrails`: split on
newline; trim each line; drop blank lines; drop any line matching the
denylist; truncate to the first 3 surviving lines; if zero lines survive,
return the single fallback line. -/
def specGuardrails (output : List Char) : List (List Char) :=
  let trimmed := (splitNl output).map jsTrim
  let nonBlank := trimmed.filter (fun line => decide (line ≠ []))
  let survivors := (nonBlank.filter (fun line => !denylisted line)).take 3
  if survivors = [] then [fallbackLine] else survivors

/-! ## services/llmService.ts — LLMService state machine

The external inference runtime is a parameter `Env`: for each model name,
constructing its pipeline either succeeds (yielding a fresh object) or
throws an error string (modelling `String(modelError)`).  Pipeline objects
are given identities drawn from a counter in the state, so that replacing a
held pipeline by a freshly constructed one is observable, as it is in the
source where each `pipeline(...)` call returns a new object. -/

/-- The shape of `this.status` in both services. -/
structure ModelStatus where
  loaded : Bool
  loading : Bool
  error : Option String
  progress : Nat
deriving DecidableEq

/-- The status both services start with and that `unloadModel` writes. -/
def initialStatus : ModelStatus := ⟨false, false, none, 0⟩

/-- Mutable fields of the `LLMService` singleton: `summarizer` (pipeline
reference, `none` for JS `null`), `currentModel`, `status`, plus the
fresh-object counter of the embedding. -/
structure LLMState where
  summarizer : Option Nat
  currentModel : String
  status : ModelStatus
  nextId : Nat
deriving DecidableEq

/-- The state of the freshly constructed singleton. -/
def LLMState.initial : LLMState := ⟨none, "", initialStatus, 0⟩

/-- The external runtime: pipeline construction per model name. -/
def Env : Type := String → Except String Unit

/-- The fixed candidate list `modelsToTry` of `LLMService.loadModel`. -/
def modelsToTry : List String :=
  ["Xenova/t5-small", "Xenova/distilgpt2", "Xenova/gpt2"]

/-- The candidate loop of `loadModel`: try each model in order; on success
stop with the loaded name; on failure compare the candidate with the last
element of the list (as the source does) and rethrow its error there,
otherwise continue.  Returns the outcome together with the list of
candidates actually attempted.  The `[]` case is the `!summarizer` check
after the loop, unreachable for the fixed non-empty candidate list. -/
def tryLoadModels (env : Env) (lastModel : String) :
    List String → Except String String × List String
  | [] => (Except.error "Error: Failed to load any summarization model", [])
  | m :: rest =>
    match env m with
    | Except.ok _ => (Except.ok m, [m])
    | Except.error e =>
      if m = lastModel then (Except.error e, [m])
      else
        match tryLoadModels env lastModel rest with
        | (r, tr) => (r, m :: tr)

/-- Result of one `loadModel` call: the post-state, the error raised to the
caller (`none` when it returns normally), and the candidates attempted
(`[]` when the early-return guard fired). -/
structure LoadOutcome where
  state : LLMState
  raised : Option String
  attempts : List String
deriving DecidableEq

/-- `LLMService.loadModel`: early return when a pipeline is held and
`currentModel` equals the requested key; otherwise set the loading status
and run the candidate loop.  On success the state records a fresh pipeline
object, `currentModel := loadedModelName` (the candidate that loaded, not
the requested key) and the loaded status; on failure only the status is
overwritten (the previously held pipeline, if any, is kept) and the error
is re-raised.  Intermediate `progress` callback updates are not modelled:
they are overwritten by the final status on both paths. -/
def loadModel (env : Env) (modelKey : String) (st : LLMState) : LoadOutcome :=
  if st.summarizer.isSome ∧ st.currentModel = modelKey then
    ⟨st, none, []⟩
  else
    let st1 : LLMState := { st with status := ⟨false, true, none, 0⟩ }
    match tryLoadModels env (modelsToTry.getLastD "") modelsToTry with
    | (Except.ok name, tr) =>
      ⟨{ st1 with
          summarizer := some st1.nextId
          nextId := st1.nextId + 1
          currentModel := name
          status := ⟨true, false, none, 100⟩ }, none, tr⟩
    | (Except.error e, tr) =>
      ⟨{ st1 with status := ⟨false, false, some e, 0⟩ }, some e, tr⟩

/-- `LLMService.unloadModel`: only when a pipeline is held does it drop the
reference, clear `currentModel` and reset the status. -/
def unloadModel (st : LLMState) : LLMState :=
  if st.summarizer.isSome then
    { st with summarizer := none, currentModel := "", status := initialStatus }
  else st

/-- `SummarizeRequest` (types/index): the text plus optional length bounds. -/
structure SummarizeRequest where
  text : List Char
  maxLength : Option Nat
  minLength : Option Nat
deriving DecidableEq

/-- The input-validation step of `LLMService.summarize` (lines 107–111):
when the token estimate exceeds `TOKEN_LIMITS.INPUT_MAX` the `text` field
of the request is overwritten in place with its truncation; the other fields
are untouched, and no later line of `summarize` writes to the request. -/
def truncateRequest (request : SummarizeRequest) : SummarizeRequest :=
  if TOKEN_LIMITS_INPUT_MAX < estimateTokens request.text then
    { request with text := truncateText request.text TOKEN_LIMITS_INPUT_MAX }
  else request

/-- `LLMService.summarize`, modelled up to its own logic: the no-model
precondition check and the in-place request mutation.  The pipeline
invocation that follows is the external runtime, out of scope; the value
returned here is the request object as the caller sees it after the call. -/
def summarize (st : LLMState) (request : SummarizeRequest) :
    Except String SummarizeRequest :=
  if st.summarizer.isNone then
    Except.error "No model loaded. Please load a model first."
  else
    Except.ok (truncateRequest request)

/-! ## services/commandService.ts — CommandService state machine
(only the parts the claims touch: unload and the inference precondition) -/

/-- Mutable fields of the `CommandService` singleton. -/
structure CommandState where
  generator : Option Nat
  currentModel : String
  status : ModelStatus
  nextId : Nat
deriving DecidableEq

/-- The state of the freshly constructed `CommandService` singleton. -/
def CommandState.initial : CommandState := ⟨none, "", initialStatus, 0⟩

/-- `CommandService.unloadModel`: same shape as the unload of the summarizer. -/
def unloadCommandModel (st : CommandState) : CommandState :=
  if st.generator.isSome then
    { st with generator := none, currentModel := "", status := initialStatus }
  else st

/-- `CommandService.generateCommands`, modelled up to its precondition
check; formatting, pipeline invocation and the guardrails (see
`applyOutputGuardrails`) follow it in the source. -/
def generateCommands (st : CommandState) : Except String Unit :=
  if st.generator.isNone then
    Except.error "No model loaded. Please load a model first."
  else
    Except.ok ()

/-! ## Concrete environments used in counterexamples and witnesses -/

/-- Environment where only `Xenova/t5-small` loads successfully. -/
def env0 : Env := fun m =>
  if m = "Xenova/t5-small" then Except.ok () else Except.error "Error: load failed"

/-- Environment where every pipeline construction fails. -/
def envFail : Env := fun _ => Except.error "Error: network failure"

/-! ## Helper lemmas -/

/-- The keep-predicate of the source filter is the negation of the
denylist predicate of the spec. -/
theorem keepLine_eq_not_denylisted (l : List Char) : keepLine l = !denylisted l := by
  unfold keepLine denylisted
  cases containsSub (jsToLower l) "because".data <;>
    cases containsSub (jsToLower l) "to ".data <;>
    cases containsSub (jsToLower l) "this will".data <;>
    cases containsSub (jsToLower l) "you can".data <;>
    cases containsSub l "#".data <;>
    cases ("```".data).isPrefixOf l <;> rfl

/-- The candidate loop always attempts at least the first candidate. -/
theorem tryLoadModels_attempts_ne_nil (env : Env) (lastModel m : String)
    (rest : List String) : (tryLoadModels env lastModel (m :: rest)).2 ≠ [] := by
  unfold tryLoadModels
  cases env m with
  | ok _ => simp
  | error e =>
    dsimp only
    split
    · simp
    · cases htr : tryLoadModels env lastModel rest with
      | mk r tr => simp

/-! ## Claim theorems -/

/-- Claim C1: for every input string, `applyOutputGuardrails` returns at
most 3 lines; it returns exactly the single fallback list when every input
line is blank after trimming or matches the denylist filter; in particular
the input consisting only of a fenced comment yields the fallback line. -/
theorem applyOutputGuardrails_c1 :
    (∀ output, (applyOutputGuardrails output).length ≤ 3) ∧
    (∀ output, (∀ l ∈ splitNl output, jsTrim l = [] ∨ keepLine (jsTrim l) = false) →
      applyOutputGuardrails output = [fallbackLine]) ∧
    applyOutputGuardrails ("```\n# comment\n```".data) = [fallbackLine] := by
  refine ⟨?_, ?_, by decide⟩
  · intro output
    unfold applyOutputGuardrails
    dsimp only
    split
    · simp
    · simp [List.length_take]
  · intro output h
    unfold applyOutputGuardrails
    dsimp only
    have h2 : ((((splitNl output).map jsTrim).filter
        (fun line => decide (0 < line.length))).filter keepLine) = [] := by
      rw [List.filter_eq_nil_iff]
      intro a ha
      rw [List.mem_filter] at ha
      obtain ⟨hmem, hlen⟩ := ha
      rw [List.mem_map] at hmem
      obtain ⟨l, hl, rfl⟩ := hmem
      rcases h l hl with he | hk
      · rw [he] at hlen; simp at hlen
      · simp [hk]
    simp [h2]

/-- Witness for C1: an input whose lines are all blank or denylisted (an
empty line, a line containing "to ", a line containing a hash) yields the
fallback line. -/
theorem applyOutputGuardrails_c1_witness :
    applyOutputGuardrails (" \nto list files\n#done".data) = [fallbackLine] :=
  applyOutputGuardrails_c1.2.1 (" \nto list files\n#done".data) (by decide)

/-- Claim C2: `applyOutputGuardrails` coincides with the reference filter
written from the spec (split on newline, trim, drop blanks, drop denylisted
lines, keep the first 3 survivors, fall back when none survive); on the
example input the middle explanatory line is dropped. -/
theorem applyOutputGuardrails_c2 :
    (∀ output, applyOutputGuardrails output = specGuardrails output) ∧
    applyOutputGuardrails ("ls -la\nbecause you want to see files\ncat file.txt".data) =
      ["ls -la".data, "cat file.txt".data] := by
  constructor
  · intro output
    unfold applyOutputGuardrails specGuardrails
    have hpred : (fun (l : List Char) => decide (0 < l.length)) =
        (fun (l : List Char) => decide (l ≠ [])) := by
      funext l; cases l <;> simp
    have hkeep : keepLine = (fun l => !denylisted l) := by
      funext l; exact keepLine_eq_not_denylisted l
    rw [hpred, hkeep]
    simp [List.length_eq_zero]
  · decide

/-- Claim C3 (amended): a repeated `loadModel` call is a no-op exactly when
the requested key equals the model name recorded as current, which after a
successful load is the name of the candidate that actually loaded, not the
requested key; when the key differs from the current model the candidate
initialization sequence re-runs. -/
theorem loadModel_c3_amended (env : Env) (key : String) (st : LLMState)
    (h1 : st.summarizer.isSome = true) :
    (st.currentModel = key → loadModel env key st = ⟨st, none, []⟩) ∧
    (st.currentModel ≠ key → (loadModel env key st).attempts ≠ []) := by
  constructor
  · intro h2
    unfold loadModel
    rw [if_pos ⟨h1, h2⟩]
  · intro h2
    unfold loadModel
    rw [if_neg (by simp [h2])]
    dsimp only
    cases htr : tryLoadModels env (modelsToTry.getLastD "") modelsToTry with
    | mk r tr =>
      have hne : tr ≠ [] := by
        have := tryLoadModels_attempts_ne_nil env (modelsToTry.getLastD "")
          "Xenova/t5-small" ["Xenova/distilgpt2", "Xenova/gpt2"]
        rw [show ("Xenova/t5-small" :: ["Xenova/distilgpt2", "Xenova/gpt2"]) =
          modelsToTry from rfl, htr] at this
        exact this
      cases r <;> simpa using hne

/-- Counterexample to C3 as stated: in the environment where only the T5
candidate loads, a first `loadModel` with key `phi-3-mini` succeeds, yet
the immediate second call with the same key is not a no-op: it re-runs the
candidate initialization (non-empty attempt list) and changes the state
(the held pipeline is replaced by a fresh object), because the current
model records the loaded candidate name, not the requested key. -/
theorem loadModel_c3_counterexample :
    (loadModel env0 "phi-3-mini" LLMState.initial).state.status.loaded = true ∧
    (loadModel env0 "phi-3-mini" LLMState.initial).raised = none ∧
    (loadModel env0 "phi-3-mini"
      ((loadModel env0 "phi-3-mini" LLMState.initial).state)).attempts ≠ [] ∧
    (loadModel env0 "phi-3-mini"
      ((loadModel env0 "phi-3-mini" LLMState.initial).state)).state ≠
      (loadModel env0 "phi-3-mini" LLMState.initial).state := by decide

/-- Witness for the amended C3: when the requested key is the name of the
candidate that actually loaded, the second call is a no-op. -/
theorem loadModel_c3_witness :
    loadModel env0 "Xenova/t5-small"
      ((loadModel env0 "Xenova/t5-small" LLMState.initial).state) =
      ⟨(loadModel env0 "Xenova/t5-small" LLMState.initial).state, none, []⟩ :=
  (loadModel_c3_amended env0 "Xenova/t5-small"
    ((loadModel env0 "Xenova/t5-small" LLMState.initial).state) (by decide)).1 (by decide)

/-- Claim C4 (amended): `unloadModel` always leaves the pipeline reference
cleared and any subsequent inference call (summarize, and the analogous
generateCommands of the command service) raises the no-model-loaded
precondition error; the status is reset to the initial state exactly when a
pipeline reference was held, and when none was held the call is a complete
no-op, so an error status left by a failed load persists. -/
theorem unloadModel_c4_amended (st : LLMState) (cst : CommandState)
    (r : SummarizeRequest) :
    (unloadModel st).summarizer = none ∧
    (st.summarizer.isSome = true → (unloadModel st).status = initialStatus) ∧
    (st.summarizer = none → unloadModel st = st) ∧
    summarize (unloadModel st) r =
      Except.error "No model loaded. Please load a model first." ∧
    (unloadCommandModel cst).generator = none ∧
    generateCommands (unloadCommandModel cst) =
      Except.error "No model loaded. Please load a model first." := by
  refine ⟨?_, ?_, ?_, ?_, ?_, ?_⟩
  · cases hs : st.summarizer <;> simp [unloadModel, hs]
  · intro h; simp [unloadModel, h]
  · intro h; simp [unloadModel, h]
  · cases hs : st.summarizer <;> simp [unloadModel, summarize, hs]
  · cases hg : cst.generator <;> simp [unloadCommandModel, hg]
  · cases hg : cst.generator <;> simp [unloadCommandModel, generateCommands, hg]

/-- Counterexample to C4 as stated: after a failed first load the service
holds no pipeline, so `unloadModel` is a no-op and the status keeps the
error message rather than returning to the initial state. -/
theorem unloadModel_c4_counterexample :
    ((loadModel envFail "phi-3-mini" LLMState.initial).state).status.error =
      some "Error: network failure" ∧
    unloadModel ((loadModel envFail "phi-3-mini" LLMState.initial).state) =
      (loadModel envFail "phi-3-mini" LLMState.initial).state ∧
    (unloadModel ((loadModel envFail "phi-3-mini" LLMState.initial).state)).status ≠
      initialStatus := by decide

/-- Witness for the amended C4: unloading a state that holds a pipeline
resets the status to the initial state. -/
theorem unloadModel_c4_witness :
    (unloadModel ⟨some 0, "Xenova/t5-small", ⟨true, false, none, 100⟩, 1⟩).status =
      initialStatus :=
  (unloadModel_c4_amended ⟨some 0, "Xenova/t5-small", ⟨true, false, none, 100⟩, 1⟩
    CommandState.initial ⟨[], none, none⟩).2.1 rfl

/-- Claim C5: when every candidate model fails to initialize (and the
early-return guard does not fire), `loadModel` attempts every candidate in
order — so a non-final failure is not raised but leads to the next
candidate — and then sets the error status from the message of the last
candidate and re-raises exactly that error; the previously held pipeline
reference is untouched. -/
theorem loadModel_c5 (env : Env) (key : String) (st : LLMState)
    (hguard : st.summarizer = none ∨ st.currentModel ≠ key)
    (e1 e2 e3 : String)
    (h1 : env "Xenova/t5-small" = Except.error e1)
    (h2 : env "Xenova/distilgpt2" = Except.error e2)
    (h3 : env "Xenova/gpt2" = Except.error e3) :
    (loadModel env key st).attempts = modelsToTry ∧
    (loadModel env key st).raised = some e3 ∧
    (loadModel env key st).state.status = ⟨false, false, some e3, 0⟩ ∧
    (loadModel env key st).state.summarizer = st.summarizer := by
  have hcond : ¬(st.summarizer.isSome ∧ st.currentModel = key) := by
    rcases hguard with h | h
    · simp [h]
    · simp [h]
  have htry : tryLoadModels env (modelsToTry.getLastD "") modelsToTry =
      (Except.error e3, modelsToTry) := by
    unfold modelsToTry
    unfold tryLoadModels
    rw [h1]
    dsimp only
    rw [if_neg (by decide)]
    unfold tryLoadModels
    rw [h2]
    dsimp only
    rw [if_neg (by decide)]
    unfold tryLoadModels
    rw [h3]
    dsimp only
    rw [if_pos (by decide)]
  unfold loadModel
  rw [if_neg hcond, htry]
  exact ⟨rfl, rfl, rfl, rfl⟩

/-- Witness for C5: in the all-failing environment, loading from the
initial state raises the error of the last candidate. -/
theorem loadModel_c5_witness :
    (loadModel envFail "phi-3-mini" LLMState.initial).raised =
      some "Error: network failure" :=
  (loadModel_c5 envFail "phi-3-mini" LLMState.initial (Or.inl rfl)
    "Error: network failure" "Error: network failure" "Error: network failure"
    rfl rfl rfl).2.1

/-- Claim C6: `estimateTokens` computes the mathematical ceiling of the
character count divided by 4, maps the empty string to 0, and is monotone
non-decreasing in the input length. -/
theorem estimateTokens_c6 :
    (∀ s : List Char, (estimateTokens s : ℤ) = ⌈(s.length : ℚ) / 4⌉) ∧
    estimateTokens "".data = 0 ∧
    (∀ s t : List Char, s.length ≤ t.length → estimateTokens s ≤ estimateTokens t) := by
  refine ⟨?_, by decide, ?_⟩
  · intro s
    unfold estimateTokens APPROX_CHARS_PER_TOKEN
    symm
    set q := (s.length + 3) / 4 with hqdef
    rw [Int.ceil_eq_iff]
    have hq1 : 4 * q < s.length + 4 := by omega
    have hq2 : s.length ≤ 4 * q := by omega
    have h1 : ((4 * q : ℕ) : ℚ) < ((s.length + 4 : ℕ) : ℚ) := Nat.cast_lt.2 hq1
    have h2 : ((s.length : ℕ) : ℚ) ≤ ((4 * q : ℕ) : ℚ) := Nat.cast_le.2 hq2
    push_cast at h1 h2
    constructor
    · push_cast
      rw [sub_lt_iff_lt_add,
        show ((s.length : ℚ) / 4 + 1) = ((s.length : ℚ) + 4) / 4 by ring,
        lt_div_iff₀ (by norm_num : (0:ℚ) < 4)]
      linarith
    · push_cast
      rw [div_le_iff₀ (by norm_num : (0:ℚ) < 4)]
      linarith
  · intro s t h
    unfold estimateTokens
    exact Nat.div_le_div_right (by omega)

/-- Witness for C6: monotonicity applied at two concrete strings. -/
theorem estimateTokens_c6_witness :
    estimateTokens "ab".data ≤ estimateTokens "abcde".data :=
  estimateTokens_c6.2.2 "ab".data "abcde".data (by decide)

/-- Claim C7: `truncateText s n` is a prefix of `s` of length at most `4 * n`
characters, and returns `s` unchanged when the length of `s` is at most
`4 * n`. -/
theorem truncateText_c7 (s : List Char) (n : Nat) :
    truncateText s n <+: s ∧ (truncateText s n).length ≤ 4 * n ∧
    (s.length ≤ 4 * n → truncateText s n = s) := by
  unfold truncateText APPROX_CHARS_PER_TOKEN
  dsimp only
  split
  · rename_i h
    refine ⟨List.take_prefix _ _, ?_, ?_⟩
    · simp [List.length_take]; omega
    · intro hle; omega
  · rename_i h
    exact ⟨List.prefix_refl _, by omega, fun _ => rfl⟩

/-- Witness for C7: a short string is returned unchanged. -/
theorem truncateText_c7_witness : truncateText "ab".data 1 = "ab".data :=
  (truncateText_c7 "ab".data 1).2.2 (by decide)

/-- Claim C8: `calculateTokensPerSecond` returns `tokens / (timeMs / 1000)`
for positive durations and 0 for non-positive ones; in particular it maps
`(100, 0)` to 0 and `(100, 1000)` to 100. -/
theorem calculateTokensPerSecond_c8 :
    (∀ tokens timeMs : ℚ, 0 < timeMs →
      calculateTokensPerSecond tokens timeMs = tokens / (timeMs / 1000)) ∧
    (∀ tokens timeMs : ℚ, timeMs ≤ 0 → calculateTokensPerSecond tokens timeMs = 0) ∧
    calculateTokensPerSecond 100 0 = 0 ∧
    calculateTokensPerSecond 100 1000 = 100 := by
  refine ⟨?_, ?_, ?_, ?_⟩
  · intro t ms h; rw [calculateTokensPerSecond, if_pos h]
  · intro t ms h; rw [calculateTokensPerSecond, if_neg (not_lt.2 h)]
  · norm_num [calculateTokensPerSecond]
  · norm_num [calculateTokensPerSecond]

/-- Witness for C8: the positive-duration branch at a concrete input. -/
theorem calculateTokensPerSecond_c8_witness :
    calculateTokensPerSecond 5 2000 = 5 / (2000 / 1000) :=
  calculateTokensPerSecond_c8.1 5 2000 (by norm_num)

/-- Claim C9: when the token estimate of the request text exceeds the input
limit of 1000 and a model is loaded, `summarize` overwrites the `text`
field of the request object with its truncated prefix before inference, so
the request the caller holds after the call no longer contains the original
text, while the other request fields are unchanged. -/
theorem summarize_c9 (st : LLMState) (r : SummarizeRequest)
    (hs : st.summarizer.isSome = true)
    (h : TOKEN_LIMITS_INPUT_MAX < estimateTokens r.text) :
    summarize st r =
      Except.ok ⟨truncateText r.text TOKEN_LIMITS_INPUT_MAX, r.maxLength, r.minLength⟩ ∧
    truncateText r.text TOKEN_LIMITS_INPUT_MAX ≠ r.text := by
  constructor
  · unfold summarize
    rw [if_neg (by simp [Option.isNone_iff_eq_none]; intro hn; rw [hn] at hs; simp at hs)]
    unfold truncateRequest
    rw [if_pos h]
  · intro heq
    unfold estimateTokens APPROX_CHARS_PER_TOKEN TOKEN_LIMITS_INPUT_MAX at h
    unfold truncateText TOKEN_LIMITS_INPUT_MAX APPROX_CHARS_PER_TOKEN at heq
    dsimp only at heq
    have hlen : 1000 * 4 < r.text.length := by omega
    rw [if_pos hlen] at heq
    have hcl := congrArg List.length heq
    simp [List.length_take] at hcl
    omega

/-- Witness for C9: a 4004-character request text is strictly truncated. -/
theorem summarize_c9_witness :
    truncateText (List.replicate 4004 'a') TOKEN_LIMITS_INPUT_MAX ≠
      List.replicate 4004 'a' :=
  (summarize_c9 ⟨some 0, "Xenova/t5-small", ⟨true, false, none, 100⟩, 1⟩
    ⟨List.replicate 4004 'a', none, none⟩ rfl
    (by unfold estimateTokens TOKEN_LIMITS_INPUT_MAX APPROX_CHARS_PER_TOKEN
        rw [List.length_replicate]
        norm_num)).2

/-- Claim C10: truncation enforces the token estimate: for every string and
every token bound, the estimate of the truncated text is at most the bound. -/
theorem estimateTokens_truncateText_c10 (s : List Char) (n : Nat) :
    estimateTokens (truncateText s n) ≤ n := by
  unfold estimateTokens truncateText APPROX_CHARS_PER_TOKEN
  dsimp only
  split
  · rename_i h; simp [List.length_take]; omega
  · rename_i h; omega

end WasmSummarizer
